import Mathlib

/-!
Verification development for the zhongyuan registration service
(Express + MongoDB). The core under scrutiny is the record ingestion,
query/filter, deletion and CSV export logic of the routes module
(src/unnamed/part_000 and part_002 are two variants of the same router;
part_002 registers two POST handlers for /api/records and Express
dispatches the first one, at lines 44-109, which coerces amounts with
the expression Number(x) || 0 -- that handler is taken as canonical,
matching the design note of the specification). The MongoDB store is
modelled as a list of records together with the documented semantics of
its driver operations: an ordered insertMany that stops at the first
uniqueness violation without rolling back earlier inserts, a unique
index on localId (created without the sparse flag in src/database.js
line 38 and with sparse true in src/server/database.js line 31), and an
ObjectId constructor that throws unless its argument is a 24 character
hex string or a 12 character string.
-/

namespace ZR

/-- A JavaScript value as far as the amount fields are concerned:
a number, a string, or an absent field. -/
inductive JVal where
  | num (q : ℚ)
  | str (s : String)
  | missing
deriving DecidableEq, Repr

/-- Accumulate a run of decimal digits: returns the value read, how many
digits were consumed, and the rest of the input. -/
def digitsVal : List Char → Nat → Nat → Nat × Nat × List Char
  | [], acc, k => (acc, k, [])
  | c :: cs, acc, k =>
    if c.isDigit then digitsVal cs (acc * 10 + (c.toNat - 48)) (k + 1)
    else (acc, k, c :: cs)

/-- Whitespace the Number conversion strips from both ends: the ASCII
whitespace and line terminators plus the common Unicode space
characters (no-break space, byte order mark, line and paragraph
separators). -/
def isWsChar (c : Char) : Bool :=
  c = ' ' ∨ c = '\t' ∨ c = '\n' ∨ c = '\r' ∨ c = '\x0b' ∨ c = '\x0c' ∨
    c = '\u00A0' ∨ c = '\uFEFF' ∨ c = '\u2028' ∨ c = '\u2029'

/-- The characters of s with leading and trailing whitespace removed. -/
def jsTrimChars (s : String) : List Char :=
  ((s.data.dropWhile isWsChar).reverse.dropWhile isWsChar).reverse

/-- The outcome of the Number(string) conversion: NaN, one of the two
infinities, or a finite value. Finite values are idealized as exact
rationals -- the model carries no binary64 rounding or overflow. -/
inductive NumParse where
  | nan
  | inf (neg : Bool)
  | fin (q : ℚ)
deriving DecidableEq, Repr

/-- The value of a hexadecimal digit. -/
def hexVal (c : Char) : Option Nat :=
  if c.isDigit then some (c.toNat - 48)
  else if 97 ≤ c.toNat ∧ c.toNat ≤ 102 then some (c.toNat - 87)
  else if 65 ≤ c.toNat ∧ c.toNat ≤ 70 then some (c.toNat - 55)
  else none

/-- The value of an octal digit. -/
def octVal (c : Char) : Option Nat :=
  if 48 ≤ c.toNat ∧ c.toNat ≤ 55 then some (c.toNat - 48) else none

/-- The value of a binary digit. -/
def binVal (c : Char) : Option Nat :=
  if c = '0' then some 0 else if c = '1' then some 1 else none

/-- Accumulate a run of digits of the given base via a digit-value
function: the value read, how many digits were consumed, and the rest
of the input. -/
def radixVal (dv : Char → Option Nat) (base : Nat) :
    List Char → Nat → Nat → Nat × Nat × List Char
  | [], acc, k => (acc, k, [])
  | c :: cs, acc, k =>
    match dv c with
    | some d => radixVal dv base cs (acc * base + d) (k + 1)
    | none => (acc, k, c :: cs)

/-- A non-decimal integer literal after its 0x, 0o or 0b prefix: at
least one digit of the base and nothing else. -/
def parseRadix (dv : Char → Option Nat) (base : Nat)
    (rest : List Char) : NumParse :=
  let (v, k, r) := radixVal dv base rest 0 0
  if r.isEmpty ∧ 0 < k then .fin (mkRat (Int.ofNat v) 1) else .nan

/-- The finite value sign times mant divided by 10 to the k2, scaled by
10 to the signed exponent. -/
def finVal (neg : Bool) (mant k2 ev : Nat) (eneg : Bool) : ℚ :=
  let num : Nat := if eneg then mant else mant * 10 ^ ev
  let den : Nat := if eneg then 10 ^ (k2 + ev) else 10 ^ k2
  mkRat (if neg then -(num : ℤ) else (num : ℤ)) den

/-- A signed decimal literal or an Infinity literal: an optional sign,
then either the word Infinity, or digits with an optional fractional
part and an optional e or E exponent with its own optional sign; at
least one digit must appear around the decimal point and at least one
in an exponent. Anything else is NaN. -/
def parseSignedDec (cs : List Char) : NumParse :=
  let neg : Bool := match cs with | '-' :: _ => true | _ => false
  let cs1 : List Char := match cs with | '-' :: r => r | '+' :: r => r | _ => cs
  if cs1 = ['I', 'n', 'f', 'i', 'n', 'i', 't', 'y'] then .inf neg
  else
    let (ip, k1, cs2) := digitsVal cs1 0 0
    let frac : Nat × Nat × List Char :=
      match cs2 with
      | '.' :: cs3 => digitsVal cs3 0 0
      | _ => (0, 0, cs2)
    let (fp, k2, cs4) := frac
    if k1 + k2 = 0 then .nan
    else
      let mant : Nat := ip * 10 ^ k2 + fp
      match cs4 with
      | [] => .fin (finVal neg mant k2 0 true)
      | e :: cs5 =>
        if e = 'e' ∨ e = 'E' then
          let eneg : Bool := match cs5 with | '-' :: _ => true | _ => false
          let cs6 : List Char :=
            match cs5 with | '-' :: r => r | '+' :: r => r | _ => cs5
          let (ev, k3, cs7) := digitsVal cs6 0 0
          if cs7.isEmpty ∧ 0 < k3 then .fin (finVal neg mant k2 ev eneg)
          else .nan
        else .nan

/-- Model of the JavaScript Number(string) conversion: the input is
trimmed, the empty string converts to 0, the unsigned prefixes 0x, 0o
and 0b start hexadecimal, octal and binary integer literals, and
everything else is read as a signed decimal or Infinity literal, with
NaN for any string outside the grammar. Finite values are idealized as
exact rationals (no binary64 rounding or overflow). -/
def jsParseNumber (s : String) : NumParse :=
  match jsTrimChars s with
  | [] => .fin 0
  | cs =>
    match cs with
    | '0' :: x :: rest =>
      if x = 'x' ∨ x = 'X' then parseRadix hexVal 16 rest
      else if x = 'o' ∨ x = 'O' then parseRadix octVal 8 rest
      else if x = 'b' ∨ x = 'B' then parseRadix binVal 2 rest
      else parseSignedDec cs
    | _ => parseSignedDec cs

/-- The JavaScript Number(x) conversion on our value type; an absent
field converts to NaN. -/
def jsToNumber : JVal → NumParse
  | .num q => .fin q
  | .str s => jsParseNumber s
  | .missing => .nan

/-- The amount coercion of the canonical submit handler,
part_002 lines 67-68: Number(item.amount) || 0. A NaN result (failed
conversion or absent field) and the falsy number 0 both become 0; a
finite non-zero value is kept. An infinite parse (the Infinity
literal) is the one case the rational value model cannot hold -- the
program keeps the infinity itself there (a number, never text); the
branch value below never matters because the theorem on ingestion
excludes infinite parses explicitly. -/
def coerceAmount (v : JVal) : ℚ :=
  match jsToNumber v with
  | .fin q => if q = 0 then 0 else q
  | .nan => 0
  | .inf _ => 0

/-- JavaScript x || d for an optional string x: absent and the empty
string (both falsy) fall back to the default. -/
def jsOrD (o : Option String) (d : String) : String :=
  match o with
  | some s => if s = "" then d else s
  | none => d

/-- Truthiness of an optional string parameter. -/
def isTruthy (o : Option String) : Bool :=
  match o with
  | some s => s != ""
  | none => false

/-- A stored record of the zhongyuan_records collection, with the fields
the core reads and writes. Amounts are rationals since the canonical
ingestion always stores numbers; timestamps are epoch milliseconds. -/
structure Record where
  _id : String := ""
  localId : Option String := none
  serverId : String := ""
  name : Option String := none
  project : Option String := none
  method : Option String := none
  content : Option String := none
  payment : Option String := none
  contact : Option String := none
  amountTWD : Option ℚ := none
  amountRMB : Option ℚ := none
  batchId : Option String := none
  deviceId : Option String := none
  submittedAt : Option Nat := none
  createdAt : Option Nat := none
  updatedAt : Option Nat := none
  syncStatus : Option String := none
deriving DecidableEq, Repr

/-- A raw item of a submitted batch, before normalization. -/
structure Item where
  localId : Option String := none
  name : Option String := none
  project : Option String := none
  method : Option String := none
  content : Option String := none
  payment : Option String := none
  contact : Option String := none
  amountTWD : JVal := .missing
  amountRMB : JVal := .missing
deriving DecidableEq, Repr

/-- An entry of the append-only logs collection. -/
structure LogEntry where
  type : String
  batchId : Option String := none
  targetId : Option String := none
  count : Option Nat := none
  deletedCount : Option Nat := none
  deviceId : Option String := none
  timestamp : Nat := 0
  ip : String := ""
deriving DecidableEq, Repr

/-- Per-request ambient data: the ingestion instant (Date.now and the
new Date() stamps, taken as one instant for the whole request), and the
generators of fresh store ids and fresh serverId values. -/
structure IngestEnv where
  now : Nat
  freshOid : Nat → String
  freshId : Nat → String

/-- Normalization of one raw item by the canonical submit handler
(part_002 lines 64-77): spread the item, coerce both amounts with
Number(x) || 0, stamp batchId (or its time-derived default), deviceId
(or unknown), the three timestamps, syncStatus and a fresh serverId. -/
def normalizeItem (env : IngestEnv) (batchId deviceId : Option String)
    (idx : Nat) (it : Item) : Record :=
  { _id := env.freshOid idx
    localId := it.localId
    serverId := env.freshId idx
    name := it.name
    project := it.project
    method := it.method
    content := it.content
    payment := it.payment
    contact := it.contact
    amountTWD := some (coerceAmount it.amountTWD)
    amountRMB := some (coerceAmount it.amountRMB)
    batchId := some (jsOrD batchId ("batch_" ++ Nat.repr env.now))
    deviceId := some (jsOrD deviceId "unknown")
    submittedAt := some env.now
    createdAt := some env.now
    updatedAt := some env.now
    syncStatus := some "synced" }

/-- List.map with the element index, as in data.map((item, i) => ...). -/
def mapWithIndex (f : Nat → α → β) : Nat → List α → List β
  | _, [] => []
  | i, a :: as => f i a :: mapWithIndex f (i + 1) as

/-- src/database.js line 38 creates the localId unique index without the
sparse flag, so documents missing localId are indexed under null. -/
def localIdIndexSparseDatabaseJs : Bool := false

/-- src/server/database.js line 31 creates the localId unique index with
sparse set to true, so documents missing localId are skipped. -/
def localIdIndexSparseServerDatabaseJs : Bool := true

/-- Whether inserting b next to an already stored a violates the unique
index on localId. Under the sparse index only two present equal
localId values clash; under the non-sparse index two absent localId
fields clash as well, both being indexed under null. -/
def localIdClash (sparse : Bool) (a b : Record) : Bool :=
  if sparse then
    match a.localId, b.localId with
    | some x, some y => x == y
    | _, _ => false
  else a.localId == b.localId

/-- A record clashes with some record already in the store. -/
def hasClash (sparse : Bool) (store : List Record) (r : Record) : Bool :=
  store.any (fun e => localIdClash sparse e r)

/-- Outcome of a bulk insert: the store afterwards, how many documents
went in, and whether the whole operation succeeded. -/
structure InsertRes where
  store : List Record
  insertedCount : Nat
  ok : Bool
deriving DecidableEq, Repr

/-- Models MongoDB ordered insertMany (the default used by the handler)
under the unique index on localId: documents are inserted one by one in
batch order; on the first duplicate-key violation the operation stops
and reports failure, and the documents already inserted are not rolled
back. -/
def insertMany (sparse : Bool) (store : List Record) :
    List Record → InsertRes
  | [] => ⟨store, 0, true⟩
  | r :: rs =>
    if hasClash sparse store r then ⟨store, 0, false⟩
    else
      let res := insertMany sparse (store ++ [r]) rs
      ⟨res.store, res.insertedCount + 1, res.ok⟩

/-- The body of POST /api/records. -/
structure SubmitReq where
  data : Option (List Item) := none
  batchId : Option String := none
  deviceId : Option String := none
  ip : String := ""
deriving Repr

/-- Outcome reported by POST /api/records: a 400 on a missing or
non-array data field, a success envelope with submittedCount and the
echoed batchId, or a 500 when the store write throws. -/
inductive IngestResult where
  | validationError
  | ok (submittedCount : Nat) (batchId : Option String)
  | storeError
deriving DecidableEq, Repr

/-- Full observable outcome of one submit request. -/
structure IngestOut where
  store : List Record
  logs : List LogEntry
  result : IngestResult
deriving DecidableEq, Repr

/-- The data.map of the submit handler: every raw item normalized, in
order, with its index. -/
def normalizedBatch (env : IngestEnv) (req : SubmitReq)
    (items : List Item) : List Record :=
  mapWithIndex (normalizeItem env req.batchId req.deviceId) 0 items

/-- The canonical POST /api/records handler (part_002 lines 44-109):
validate that data is an array, normalize every item, bulk insert, and
on success append one record_submit log entry carrying the raw batchId
and deviceId of the request, the item count and the caller ip, then
answer with insertedCount and the raw batchId. When insertMany throws
(uniqueness violation) the catch block answers 500 and appends nothing
to the logs. -/
def postApiRecords (sparse : Bool) (env : IngestEnv)
    (store : List Record) (logs : List LogEntry) (req : SubmitReq) :
    IngestOut :=
  match req.data with
  | none => ⟨store, logs, .validationError⟩
  | some items =>
    let normed := normalizedBatch env req items
    let res := insertMany sparse store normed
    if res.ok then
      ⟨res.store,
        logs ++ [{ type := "record_submit", batchId := req.batchId,
                   count := some normed.length, deviceId := req.deviceId,
                   timestamp := env.now, ip := req.ip }],
        .ok res.insertedCount req.batchId⟩
    else
      ⟨res.store, logs, .storeError⟩

/-- Is n a prefix of l (character lists)? -/
def clPrefix : List Char → List Char → Bool
  | [], _ => true
  | _ :: _, [] => false
  | a :: as, b :: bs => a == b && clPrefix as bs

/-- Is n an infix of h (character lists)? -/
def clInfix (n : List Char) : List Char → Bool
  | [] => n.isEmpty
  | b :: bs => clPrefix n (b :: bs) || clInfix n bs

/-- Case-insensitive substring match on an optional text field, the
behaviour of the { field: { regex: search, options: i } } clause for a
search string free of regex metacharacters; a missing field matches
nothing. -/
def ciContains (field : Option String) (search : String) : Bool :=
  match field with
  | none => false
  | some t => clInfix (search.data.map Char.toLower) (t.data.map Char.toLower)

/-- The query parameters of GET /api/records. Dates are the epoch
milliseconds carried by the parsed startDate and endDate values. -/
structure ListQuery where
  page : Nat := 1
  limit : Nat := 50
  sortBy : Option String := none
  sortOrder : Option String := none
  search : Option String := none
  project : Option String := none
  payment : Option String := none
  startDate : Option Nat := none
  endDate : Option Nat := none

/-- The find predicate built by the handler (part_002 lines 133-163):
an OR of case-insensitive substring matches on name, contact and
content when search is truthy, exact equality on project and payment
when truthy, and inclusive bounds on submittedAt when either date is
present (a record without submittedAt fails a date clause). -/
def matchesQuery (q : ListQuery) (r : Record) : Bool :=
  (match q.search with
    | none => true
    | some s =>
      if s = "" then true
      else ciContains r.name s || ciContains r.contact s || ciContains r.content s)
  && (match q.project with
    | none => true
    | some p => if p = "" then true else r.project == some p)
  && (match q.payment with
    | none => true
    | some p => if p = "" then true else r.payment == some p)
  && (match q.startDate with
    | none => true
    | some d =>
      match r.submittedAt with
      | none => false
      | some t => d ≤ t)
  && (match q.endDate with
    | none => true
    | some d =>
      match r.submittedAt with
      | none => false
      | some t => t ≤ d)

/-- A sort key value in BSON comparison order: null sorts below numbers,
numbers below strings. -/
inductive SortKey where
  | null
  | num (q : ℚ)
  | strv (s : String)

/-- Lexicographic comparison of character lists. -/
def clLe : List Char → List Char → Bool
  | [], _ => true
  | _ :: _, [] => false
  | a :: as, b :: bs => if a = b then clLe as bs else decide (a < b)

/-- BSON-order comparison of sort keys. -/
def sortKeyLe : SortKey → SortKey → Bool
  | .null, _ => true
  | .num _, .null => false
  | .num a, .num b => decide (a ≤ b)
  | .num _, .strv _ => true
  | .strv _, .null => false
  | .strv _, .num _ => false
  | .strv a, .strv b => clLe a.data b.data

/-- The sort key extracted from a record for the dynamic sortBy field of
the sort clause; a field name the record does not carry sorts as null. -/
def sortValue (field : String) (r : Record) : SortKey :=
  match field with
  | "submittedAt" => match r.submittedAt with | some t => .num t | none => .null
  | "createdAt" => match r.createdAt with | some t => .num t | none => .null
  | "updatedAt" => match r.updatedAt with | some t => .num t | none => .null
  | "amountTWD" => match r.amountTWD with | some q => .num q | none => .null
  | "amountRMB" => match r.amountRMB with | some q => .num q | none => .null
  | "name" => match r.name with | some s => .strv s | none => .null
  | "project" => match r.project with | some s => .strv s | none => .null
  | "payment" => match r.payment with | some s => .strv s | none => .null
  | "contact" => match r.contact with | some s => .strv s | none => .null
  | "batchId" => match r.batchId with | some s => .strv s | none => .null
  | "deviceId" => match r.deviceId with | some s => .strv s | none => .null
  | "localId" => match r.localId with | some s => .strv s | none => .null
  | "serverId" => .strv r.serverId
  | _ => .null

/-- The sort direction of the handler (part_002 line 169):
sortOrder === desc gives -1, any other string gives 1. -/
def sortDirection (sortOrder : String) : Int :=
  if sortOrder = "desc" then -1 else 1

/-- Stable insertion used to model the store sort. -/
def insertLe (le : Record → Record → Bool) (r : Record) :
    List Record → List Record
  | [] => [r]
  | x :: xs => if le x r then x :: insertLe le r xs else r :: x :: xs

/-- Stable sort of the matching records, modelling cursor.sort. -/
def sortRecords (le : Record → Record → Bool) : List Record → List Record
  | [] => []
  | x :: xs => insertLe le x (sortRecords le xs)

/-- The aggregate of the filtered set (part_002 lines 177-187): one
group over the matching documents with both amount sums and a count;
with no matching document the pipeline yields no group at all. -/
structure GroupStats where
  totalAmountTWD : ℚ
  totalAmountRMB : ℚ
  count : Nat
deriving DecidableEq, Repr

/-- Sum of an optional rational field over a list, as the group stage
sums it (an absent field contributes nothing). -/
def sumField (f : Record → Option ℚ) : List Record → ℚ
  | [] => 0
  | r :: rs => (f r).getD 0 + sumField f rs

/-- The group stage applied to the filtered set: none when nothing
matches, otherwise the sums and the count. -/
def aggregateStats (l : List Record) : Option GroupStats :=
  match l with
  | [] => none
  | _ => some ⟨sumField (fun r => r.amountTWD) l, sumField (fun r => r.amountRMB) l, l.length⟩

/-- Pagination metadata of the list response. -/
structure Pagination where
  page : Nat
  limit : Nat
  totalCount : Nat
  totalPages : Nat
deriving DecidableEq, Repr

/-- The JSON answer of GET /api/records. -/
structure ListResponse where
  data : List Record
  pagination : Pagination
  stats : GroupStats
deriving DecidableEq, Repr

/-- GET /api/records (part_002 lines 112-208): build the predicate, run
the sorted paginated find and countDocuments against it, run the group
aggregate against the same predicate, and fall back to the zero stats
object when the aggregate yields no group. -/
def getApiRecords (q : ListQuery) (store : List Record) : ListResponse :=
  let sortOrder := q.sortOrder.getD "desc"
  let sortBy := q.sortBy.getD "submittedAt"
  let dir := sortDirection sortOrder
  let matching := store.filter (matchesQuery q)
  let le : Record → Record → Bool := fun a b =>
    if dir = -1 then sortKeyLe (sortValue sortBy b) (sortValue sortBy a)
    else sortKeyLe (sortValue sortBy a) (sortValue sortBy b)
  let sorted := sortRecords le matching
  let skip := (q.page - 1) * q.limit
  let totalCount := matching.length
  { data := (sorted.drop skip).take q.limit
    pagination :=
      { page := q.page, limit := q.limit, totalCount := totalCount
        totalPages := (totalCount + q.limit - 1) / q.limit }
    stats := (aggregateStats matching).getD ⟨0, 0, 0⟩ }

/-- One hex digit character. -/
def hexCh (n : Nat) : Char :=
  match n % 16 with
  | 0 => '0' | 1 => '1' | 2 => '2' | 3 => '3' | 4 => '4'
  | 5 => '5' | 6 => '6' | 7 => '7' | 8 => '8' | 9 => '9'
  | 10 => 'a' | 11 => 'b' | 12 => 'c' | 13 => 'd' | 14 => 'e' | _ => 'f'

/-- Hex encoding of the bytes of a 12 character string, as the ObjectId
constructor does with a 12 byte input. -/
def encodeHex (s : String) : String :=
  String.mk (s.data.flatMap (fun c => [hexCh (c.toNat % 256 / 16), hexCh (c.toNat % 16)]))

/-- Is c an ASCII hex digit? -/
def isHexChar (c : Char) : Bool :=
  c.isDigit || (97 ≤ c.toNat && c.toNat ≤ 102) || (65 ≤ c.toNat && c.toNat ≤ 70)

/-- Model of new ObjectId(id) for a string argument: a 24 character hex
string parses to itself (lower-cased), a 12 character string is taken
as raw bytes, and anything else makes the constructor throw (none). -/
def oidOfString (id : String) : Option String :=
  if id.length = 24 ∧ id.data.all isHexChar then
    some (String.mk (id.data.map Char.toLower))
  else if id.length = 12 then some (encodeHex id)
  else none

/-- The parameters of DELETE /api/records/:id. -/
structure DeleteReq where
  id : String
  batchId : Option String := none
  adminPassword : Option String := none
  ip : String := ""
deriving Repr

/-- Outcome reported by DELETE /api/records/:id: a 401 on a password
mismatch, a success envelope with deletedCount, or a 500 when the
ObjectId constructor throws. -/
inductive DeleteResult where
  | authError
  | ok (deletedCount : Nat)
  | storeError
deriving DecidableEq, Repr

/-- Full observable outcome of one delete request. -/
structure DeleteOut where
  store : List Record
  logs : List LogEntry
  result : DeleteResult
deriving DecidableEq, Repr

/-- Does the single-delete OR query match r for target id (with oid the
parsed ObjectId)? -/
def deleteOrMatch (id oid : String) (r : Record) : Bool :=
  r._id == oid || r.localId == some id || r.serverId == id

/-- deleteOne: remove the first record satisfying p, reporting how many
documents (0 or 1) were deleted. -/
def removeFirst (p : Record → Bool) : List Record → List Record × Nat
  | [] => ([], 0)
  | r :: rs =>
    if p r then (rs, 1)
    else
      let res := removeFirst p rs
      (r :: res.1, res.2)

/-- DELETE /api/records/:id (part_002 lines 303-361): reject with 401
unless adminPassword strictly equals the configured secret, before any
store access; then pick the first matching mode: id equal to the
literal batch with a truthy batchId deletes the whole batch, id equal
to the literal all with a truthy adminPassword deletes everything, and
otherwise deleteOne removes at most one record whose _id, localId or
serverId equals the target -- where new ObjectId(id) throws for a
malformed id, caught as a 500 with no deletion and no log. On every
completed deletion one record_delete log entry is appended. -/
def deleteApiRecordsId (cfgAdminPassword : String) (now : Nat)
    (store : List Record) (logs : List LogEntry) (req : DeleteReq) :
    DeleteOut :=
  if req.adminPassword ≠ some cfgAdminPassword then
    ⟨store, logs, .authError⟩
  else
    let finish : List Record → Nat → DeleteOut := fun store' n =>
      ⟨store',
        logs ++ [{ type := "record_delete", targetId := some req.id,
                   deletedCount := some n, timestamp := now, ip := req.ip }],
        .ok n⟩
    if req.id = "batch" ∧ isTruthy req.batchId then
      let b := req.batchId.getD ""
      let kept := store.filter (fun r => r.batchId != some b)
      finish kept (store.length - kept.length)
    else if req.id = "all" ∧ cfgAdminPassword ≠ "" then
      finish [] store.length
    else
      match oidOfString req.id with
      | none => ⟨store, logs, .storeError⟩
      | some oid =>
        let res := removeFirst (deleteOrMatch req.id oid) store
        finish res.1 res.2

/-- The decimal digit character of n mod 10. -/
def digCh (n : Nat) : Char :=
  match n % 10 with
  | 0 => '0' | 1 => '1' | 2 => '2' | 3 => '3' | 4 => '4'
  | 5 => '5' | 6 => '6' | 7 => '7' | 8 => '8' | _ => '9'

/-- Big-endian decimal digits of n, with fuel. -/
def natDigitsF : Nat → Nat → List Char
  | 0, _ => []
  | fuel + 1, n => if n = 0 then [] else natDigitsF fuel (n / 10) ++ [digCh n]

/-- Decimal rendering of a natural number. -/
def natRender (n : Nat) : List Char :=
  if n = 0 then ['0'] else natDigitsF (n + 1) n

/-- Left-pad the decimal rendering of n with zeros to width w. -/
def padZ (w n : Nat) : List Char :=
  List.replicate (w - (natRender n).length) '0' ++ natRender n

/-- Decimal digits of the fractional part num/den, emitted greedily and
stopping when the remainder vanishes, truncated after the fuel runs
out. Every JavaScript number has a terminating decimal expansion, so
for the values the code produces no truncation occurs. -/
def fracDigits : Nat → Nat → Nat → List Char
  | 0, _, _ => []
  | fuel + 1, r, den =>
    if r = 0 then []
    else digCh (r * 10 / den) :: fracDigits fuel (r * 10 % den) den

/-- Model of the default JavaScript number-to-string conversion for the
terminating decimals the code handles: sign, integer part, and the
fractional digits when there are any. -/
def decRender (q : ℚ) : String :=
  let n := q.num.natAbs
  let d := q.den
  let ip := n / d
  let r := n % d
  (if q.num < 0 then "-" else "") ++ String.mk (natRender ip) ++
    (if r = 0 then "" else "." ++ String.mk (fracDigits 18 r d))

/-- Model of the JavaScript toFixed(2): round half away from zero to a
hundredth and print with exactly two decimal places. With q the
fraction n over d in lowest terms, the rounded magnitude in hundredths
is the floor of (200n + d) / 2d. -/
def toFixed2 (q : ℚ) : String :=
  let n := q.num.natAbs
  let d := q.den
  let m := (n * 200 + d) / (2 * d)
  (if q.num < 0 then "-" else "") ++
    String.mk (natRender (m / 100)) ++ "." ++ String.mk (padZ 2 (m % 100))

/-- Model of Date.prototype.toISOString on an epoch-millisecond instant
(at or after the epoch), via the standard civil-from-days calendar
computation. -/
def isoRender (ms : Nat) : String :=
  let s := ms / 1000
  let msr := ms % 1000
  let days := s / 86400
  let secs := s % 86400
  let hh := secs / 3600
  let mi := secs % 3600 / 60
  let ss := secs % 60
  let z := days + 719468
  let era := z / 146097
  let doe := z % 146097
  let yoe := (doe - doe / 1460 + doe / 36524 - doe / 146096) / 365
  let doy := doe - (365 * yoe + yoe / 4 - yoe / 100)
  let mp := (5 * doy + 2) / 153
  let dd := doy - (153 * mp + 2) / 5 + 1
  let mo := if mp < 10 then mp + 3 else mp - 9
  let yy := yoe + era * 400 + (if mo ≤ 2 then 1 else 0)
  String.mk (padZ 4 yy) ++ "-" ++ String.mk (padZ 2 mo) ++ "-" ++
    String.mk (padZ 2 dd) ++ "T" ++ String.mk (padZ 2 hh) ++ ":" ++
    String.mk (padZ 2 mi) ++ ":" ++ String.mk (padZ 2 ss) ++ "." ++
    String.mk (padZ 3 msr) ++ "Z"

/-- The regex replace doubling every double-quote character. -/
def escQuotes : List Char → List Char
  | [] => []
  | c :: cs => if c = '"' then '"' :: '"' :: escQuotes cs else c :: escQuotes cs

/-- The regex replace turning every newline into a semicolon and a
space. -/
def replaceNl : List Char → List Char
  | [] => []
  | c :: cs => if c = '\n' then ';' :: ' ' :: replaceNl cs else c :: replaceNl cs

/-- Wrap a field value in double quotes, as the template literals of the
row construction do -- without escaping anything inside. -/
def quoteWrap (s : String) : String := "\"" ++ s ++ "\""

/-- The amountTWD column: item.amountTWD || 0 printed raw, so a falsy
amount (absent or zero) prints as 0. -/
def twdField (a : Option ℚ) : String :=
  match a with
  | some q => if q = 0 then "0" else decRender q
  | none => "0"

/-- The amountRMB column: a truthy amount is printed with toFixed(2),
a falsy one (absent or zero) prints as the raw 0. -/
def rmbField (a : Option ℚ) : String :=
  match a with
  | some q => if q = 0 then "0" else toFixed2 q
  | none => "0"

/-- The submittedAt column: the ISO instant, or the empty string when
the field is absent; not quoted. -/
def submittedAtField (t : Option Nat) : String :=
  match t with
  | some ms => isoRender ms
  | none => ""

/-- One CSV data row as the list of its 13 field texts, from the row
construction of GET /api/export/csv (part_002 lines 385-401): sequence
number, then quoted name and project, the quoted method with quotes
doubled and newlines replaced, the two amount columns, the quoted
content with quotes doubled, quoted payment and contact, the ISO
submission instant, and the quoted deviceId, batchId and localId. -/
def csvRow (index : Nat) (item : Record) : List String :=
  [ String.mk (natRender (index + 1)),
    quoteWrap (item.name.getD ""),
    quoteWrap (item.project.getD ""),
    quoteWrap (String.mk (replaceNl (escQuotes (item.method.getD "").data))),
    twdField item.amountTWD,
    rmbField item.amountRMB,
    quoteWrap (String.mk (escQuotes (item.content.getD "").data)),
    quoteWrap (item.payment.getD ""),
    quoteWrap (item.contact.getD ""),
    submittedAtField item.submittedAt,
    quoteWrap (item.deviceId.getD ""),
    quoteWrap (item.batchId.getD ""),
    quoteWrap (item.localId.getD "") ]

/-- The 13 header labels of the export (part_002 lines 375-380). -/
def csvHeaders : List String :=
  [ "序号", "姓名", "护持项目", "超荐方式",
    "护持金额(新台币)", "护持金额(人民币)",
    "超荐内容", "是否缴费", "联系人",
    "提交时间", "设备ID", "批次ID", "本地ID" ]

/-- Array.prototype.join with a comma separator. -/
def joinComma : List String → String
  | [] => ""
  | [x] => x
  | x :: xs => x ++ "," ++ joinComma xs

/-- The rows of the export body, one per record in store order. -/
def csvBody : Nat → List Record → String
  | _, [] => ""
  | i, r :: rs => joinComma (csvRow i r) ++ "\n" ++ csvBody (i + 1) rs

/-- GET /api/export/csv (part_002 lines 364-418): a UTF-8 byte order
mark, the header line, then one line per record. -/
def csvExport (records : List Record) : String :=
  "\uFEFF" ++ joinComma csvHeaders ++ "\n" ++ csvBody 0 records

/-- Scan the body of a quoted CSV field after its opening quote, per the
escaping rule of RFC 4180: a doubled quote stands for a literal quote
and a single quote closes the field. Returns the unescaped content and
the input following the closing quote; none when no closing quote comes
or the field is malformed. Modelled from the spec: the standard CSV
reader that the export must stay parseable by. -/
def scanQ : List Char → Option (List Char × List Char)
  | [] => none
  | c :: cs =>
    if c = '"' then
      match cs with
      | [] => some ([], [])
      | c2 :: cs2 =>
        if c2 = '"' then (scanQ cs2).map (fun p => ('"' :: p.1, p.2))
        else some ([], c2 :: cs2)
    else (scanQ cs).map (fun p => (c :: p.1, p.2))

/-- Scan an unquoted CSV field: everything up to the next comma, which a
well-formed bare field cannot itself contain, nor a quote or a record
break. Modelled from the spec: part of the standard CSV reader. -/
def scanBare : List Char → Option (List Char × List Char)
  | [] => some ([], [])
  | c :: cs =>
    if c = ',' then some ([], c :: cs)
    else if c = '"' ∨ c = '\n' then none
    else (scanBare cs).map (fun p => (c :: p.1, p.2))

/-- Parse the comma-separated fields of one CSV record, with fuel
bounding the number of fields. Modelled from the spec: the standard
CSV reader. -/
def parseFieldsF : Nat → List Char → Option (List (List Char))
  | 0, _ => none
  | fuel + 1, cs =>
    let pf :=
      match cs with
      | [] => scanBare []
      | c :: rest => if c = '"' then scanQ rest else scanBare (c :: rest)
    match pf with
    | none => none
    | some (fld, rest) =>
      match rest with
      | [] => some [fld]
      | c :: rest2 =>
        if c = ',' then (parseFieldsF fuel rest2).map (fld :: ·) else none

/-- Parse one CSV record line into its field values, per RFC 4180.
Modelled from the spec: the standard CSV reader the export is claimed
to remain parseable by. -/
def csvParseRecord (s : String) : Option (List String) :=
  (parseFieldsF (s.length + 1) s.data).map (fun l => l.map String.mk)

/-! Theorems settling the claims. -/

/-- C5: on a deletion request whose adminPassword differs from the
configured secret the handler answers AuthError before any deletion
logic runs, for every target identifier and mode, and neither the
record set nor the log set changes. -/
theorem C5_delete_auth_guard (cfg : String) (now : Nat)
    (store : List Record) (logs : List LogEntry) (req : DeleteReq)
    (h : req.adminPassword ≠ some cfg) :
    deleteApiRecordsId cfg now store logs req = ⟨store, logs, .authError⟩ := by
  simp [deleteApiRecordsId, h]

/-- Witness for C5 at a concrete request: wrong password against the
default secret, target all, one stored record, nothing deleted. -/
theorem C5_delete_auth_guard_witness :
    deleteApiRecordsId "admin123" 5 [{ _id := "a" }] []
      { id := "all", adminPassword := some "wrong" } =
      ⟨[{ _id := "a" }], [], .authError⟩ :=
  C5_delete_auth_guard "admin123" 5 [{ _id := "a" }] []
    { id := "all", adminPassword := some "wrong" } (by decide)

/-- The find predicate does not read the sortOrder parameter. -/
theorem matchesQuery_sortOrder (q : ListQuery) (o : Option String) :
    matchesQuery { q with sortOrder := o } = matchesQuery q := rfl

/-- C10: the sort direction of the listing is descending exactly for the
string desc, which is also the default when sortOrder is absent; any
other supplied value, such as DESC, sorts ascending (the same response
as asc) and is not an error. -/
theorem C10_sort_direction (q : ListQuery) (store : List Record)
    (s : String) (h : s ≠ "desc") :
    sortDirection "desc" = -1 ∧ sortDirection s = 1 ∧
    getApiRecords { q with sortOrder := none } store =
      getApiRecords { q with sortOrder := some "desc" } store ∧
    getApiRecords { q with sortOrder := some s } store =
      getApiRecords { q with sortOrder := some "asc" } store := by
  refine ⟨rfl, by simp [sortDirection, h], ?_, ?_⟩
  · simp [getApiRecords, sortDirection, matchesQuery_sortOrder]
  · simp [getApiRecords, sortDirection, h, matchesQuery_sortOrder]

/-- Witness for C10: the value DESC is not recognized and produces the
ascending response on a concrete store. -/
theorem C10_sort_direction_witness :
    sortDirection "DESC" = 1 ∧
    getApiRecords { sortOrder := some "DESC" } [{ _id := "a" }] =
      getApiRecords { sortOrder := some "asc" } [{ _id := "a" }] := by
  have h := C10_sort_direction {} [{ _id := "a" }] "DESC" (by decide)
  exact ⟨h.2.1, h.2.2.2⟩

/-- C6: for every filter predicate the stats block of the listing has
count equal to totalCount of the same predicate and amount totals equal
to the arithmetic sums of the corresponding fields over all matching
records, and when nothing matches the stats block is all zeros. -/
theorem C6_stats_match_total (q : ListQuery) (store : List Record) :
    (getApiRecords q store).stats.count =
      (getApiRecords q store).pagination.totalCount ∧
    (getApiRecords q store).stats.totalAmountTWD =
      ((store.filter (matchesQuery q)).map (fun r => r.amountTWD.getD 0)).sum ∧
    (getApiRecords q store).stats.totalAmountRMB =
      ((store.filter (matchesQuery q)).map (fun r => r.amountRMB.getD 0)).sum ∧
    (store.filter (matchesQuery q) = [] →
      (getApiRecords q store).stats = ⟨0, 0, 0⟩) := by
  have hsum : ∀ (f : Record → Option ℚ) (l : List Record),
      sumField f l = (l.map (fun r => (f r).getD 0)).sum := by
    intro f l
    induction l with
    | nil => simp [sumField]
    | cons a t ih => simp [sumField, ih]
  cases hm : store.filter (matchesQuery q) with
  | nil => simp [getApiRecords, hm, aggregateStats]
  | cons a t => simp [getApiRecords, hm, aggregateStats, hsum]

/-- Witness for C6 on a concrete empty filtered set: the zero stats
block, with count still agreeing with totalCount. -/
theorem C6_stats_match_total_witness :
    (getApiRecords { project := some "X" } []).stats = ⟨0, 0, 0⟩ ∧
    (getApiRecords { project := some "X" } []).stats.count =
      (getApiRecords { project := some "X" } []).pagination.totalCount := by
  have h := C6_stats_match_total { project := some "X" } []
  exact ⟨h.2.2.2 rfl, h.1⟩

/-- A concrete ingestion environment for the witnesses. -/
def envW : IngestEnv :=
  ⟨1000, fun i => "oid" ++ Nat.repr i, fun i => "sid" ++ Nat.repr i⟩

/-- A successful ordered bulk insert appends the whole batch in order
and counts every document. -/
theorem insertMany_ok_spec (sparse : Bool) (batch : List Record) :
    ∀ store, (insertMany sparse store batch).ok = true →
      (insertMany sparse store batch).store = store ++ batch ∧
      (insertMany sparse store batch).insertedCount = batch.length := by
  induction batch with
  | nil => intro store _; simp [insertMany]
  | cons r rs ih =>
    intro store h
    by_cases hc : hasClash sparse store r
    · simp [insertMany, hc] at h
    · have h2 : (insertMany sparse (store ++ [r]) rs).ok = true := by
        simpa [insertMany, hc] using h
      have h3 := ih (store ++ [r]) h2
      simp [insertMany, hc, h3.1, h3.2]

/-- A failed ordered bulk insert stops at the first clashing document:
the documents before it stay committed, nothing from that point on is
inserted, and the count reports the committed prefix. -/
theorem insertMany_fail_spec (sparse : Bool) (batch : List Record) :
    ∀ store, (insertMany sparse store batch).ok = false →
      ∃ k, ∃ hk : k < batch.length,
        (insertMany sparse store batch).store = store ++ batch.take k ∧
        (insertMany sparse store batch).insertedCount = k ∧
        hasClash sparse (store ++ batch.take k) (batch.get ⟨k, hk⟩) = true := by
  induction batch with
  | nil => intro store h; simp [insertMany] at h
  | cons r rs ih =>
    intro store h
    by_cases hc : hasClash sparse store r
    · exact ⟨0, by simp, by simp [insertMany, hc], by simp [insertMany, hc],
        by simpa using hc⟩
    · have h2 : (insertMany sparse (store ++ [r]) rs).ok = false := by
        simpa [insertMany, hc] using h
      obtain ⟨k, hk, e1, e2, e3⟩ := ih (store ++ [r]) h2
      refine ⟨k + 1, by simpa using Nat.succ_lt_succ hk, ?_, ?_, ?_⟩
      · simpa [insertMany, hc] using e1
      · simpa [insertMany, hc] using e2
      · simpa using e3

/-- C1 (amended): when a batch contains an item that violates the
localId uniqueness constraint, the bulk insert fails at the first
clashing document: the handler reports the store failure (no success
count) and appends no log entry, but the documents preceding the first
clash remain committed, so the record set is extended by that prefix
rather than left unchanged. -/
theorem C1_conflict_prefix_commit (sparse : Bool) (env : IngestEnv)
    (store : List Record) (logs : List LogEntry) (req : SubmitReq)
    (items : List Item) (hdata : req.data = some items)
    (hfail : (insertMany sparse store (normalizedBatch env req items)).ok = false) :
    (postApiRecords sparse env store logs req).result = .storeError ∧
    (postApiRecords sparse env store logs req).logs = logs ∧
    ∃ k, ∃ hk : k < (normalizedBatch env req items).length,
      (postApiRecords sparse env store logs req).store =
        store ++ (normalizedBatch env req items).take k ∧
      hasClash sparse (store ++ (normalizedBatch env req items).take k)
        ((normalizedBatch env req items).get ⟨k, hk⟩) = true := by
  obtain ⟨k, hk, e1, e2, e3⟩ :=
    insertMany_fail_spec sparse (normalizedBatch env req items) store hfail
  refine ⟨?_, ?_, k, hk, ?_, e3⟩ <;> simp [postApiRecords, hdata, hfail, e1]

/-- The store contents for the C1 input: one committed record carrying
localId a. -/
def storeA : List Record := [{ _id := "e0", localId := some "a" }]

/-- The C1 request: a batch whose first item carries a fresh localId and
whose second item collides with the stored one. -/
def reqA : SubmitReq :=
  { data := some [{ localId := some "b" }, { localId := some "a" }],
    ip := "203.0.113.9" }

/-- Counterexample to C1 as stated: the conflicting batch makes the
operation report the failure, yet the record set is not unchanged --
the item preceding the conflicting one was committed, so the store
grew from one record to two. -/
theorem C1_conflict_prefix_commit_cex :
    (postApiRecords localIdIndexSparseServerDatabaseJs envW storeA [] reqA).result
        = .storeError ∧
    (postApiRecords localIdIndexSparseServerDatabaseJs envW storeA [] reqA).store
        ≠ storeA ∧
    (postApiRecords localIdIndexSparseServerDatabaseJs envW storeA [] reqA).store.length
        = 2 := by
  refine ⟨rfl, by decide, rfl⟩

/-- Witness for C1 (amended) at the concrete conflicting batch. -/
theorem C1_conflict_prefix_commit_witness :
    (postApiRecords localIdIndexSparseServerDatabaseJs envW storeA [] reqA).result
        = .storeError ∧
    (postApiRecords localIdIndexSparseServerDatabaseJs envW storeA [] reqA).logs
        = [] :=
  let h := C1_conflict_prefix_commit localIdIndexSparseServerDatabaseJs envW
    storeA [] reqA [{ localId := some "b" }, { localId := some "a" }]
    rfl (by decide)
  ⟨h.1, h.2.1⟩

/-- The pairwise uniqueness invariant on present localId values. -/
def UniqueLocalIds (store : List Record) : Prop :=
  store.Pairwise (fun a b => ∀ v, a.localId = some v → b.localId = some v → False)

/-- If a document does not clash with the store, no stored document
shares a present localId with it, under either index variant. -/
theorem hasClash_false_compat (sparse : Bool) (store : List Record)
    (r : Record) (h : hasClash sparse store r = false) :
    ∀ e ∈ store, ∀ v, e.localId = some v → r.localId = some v → False := by
  intro e he v hev hrv
  have hfe : localIdClash sparse e r = false := by
    have := List.any_eq_false.mp h e he
    simpa using this
  cases sparse with
  | true => simp [localIdClash, hev, hrv] at hfe
  | false => simp [localIdClash, hev, hrv] at hfe

/-- The ordered bulk insert preserves pairwise uniqueness of present
localId values, under either index variant, whether or not it
succeeds. -/
theorem insertMany_preserves_unique (sparse : Bool) (batch : List Record) :
    ∀ store, UniqueLocalIds store →
      UniqueLocalIds (insertMany sparse store batch).store := by
  induction batch with
  | nil => intro store h; simpa [insertMany] using h
  | cons r rs ih =>
    intro store h
    by_cases hc : hasClash sparse store r
    · simpa [insertMany, hc] using h
    · have hext : UniqueLocalIds (store ++ [r]) := by
        rw [UniqueLocalIds, List.pairwise_append]
        refine ⟨h, by simp, ?_⟩
        intro a ha b hb
        simp only [List.mem_singleton] at hb
        exact fun v hav hbv =>
          hasClash_false_compat sparse store r (by simpa using hc) a ha v hav
            (hb ▸ hbv)
      simpa [insertMany, hc] using ih (store ++ [r]) hext

/-- Under the sparse index a document without localId clashes with
nothing. -/
theorem hasClash_sparse_none (store : List Record) (r : Record)
    (h : r.localId = none) : hasClash true store r = false := by
  simp [hasClash, localIdClash, h]

/-- Under the sparse index a batch of documents all lacking localId is
inserted completely and successfully. -/
theorem insertMany_sparse_noLocalId (batch : List Record) :
    ∀ store, (∀ r ∈ batch, r.localId = none) →
      insertMany true store batch = ⟨store ++ batch, batch.length, true⟩ := by
  induction batch with
  | nil => intro store _; simp [insertMany]
  | cons r rs ih =>
    intro store hall
    have hc := hasClash_sparse_none store r (hall r (by simp))
    have h2 := ih (store ++ [r]) (fun x hx => hall x (by simp [hx]))
    simp [insertMany, hc, h2]

/-- Every member of a mapWithIndex image is the image of a member. -/
theorem mem_mapWithIndex {f : Nat → α → β} :
    ∀ {l : List α} {i : Nat} {b : β},
      b ∈ mapWithIndex f i l → ∃ j a, a ∈ l ∧ b = f j a := by
  intro l
  induction l with
  | nil => intro i b hb; simp [mapWithIndex] at hb
  | cons x xs ih =>
    intro i b hb
    simp only [mapWithIndex, List.mem_cons] at hb
    rcases hb with hb | hb
    · exact ⟨i, x, by simp, hb⟩
    · obtain ⟨j, a, ha, he⟩ := ih hb
      exact ⟨j, a, by simp [ha], he⟩

/-- mapWithIndex keeps the length. -/
theorem mapWithIndex_length {f : Nat → α → β} :
    ∀ (l : List α) (i : Nat), (mapWithIndex f i l).length = l.length := by
  intro l
  induction l with
  | nil => intro i; simp [mapWithIndex]
  | cons x xs ih => intro i; simp [mapWithIndex, ih]

/-- C2 (amended): present localId values stay pairwise distinct under
bulk ingestion, whichever index variant is in force; and under the
sparse index of src/server/database.js a batch of items without localId
is always ingested completely and without a uniqueness conflict. Under
the non-sparse index of src/database.js the second half fails, as the
counterexample shows. -/
theorem C2_unique_sparse (sparse : Bool) (store batch : List Record)
    (env : IngestEnv) (store2 : List Record) (logs : List LogEntry)
    (req : SubmitReq) (items : List Item)
    (hu : UniqueLocalIds store)
    (hdata : req.data = some items)
    (hnolid : ∀ it ∈ items, it.localId = none) :
    UniqueLocalIds (insertMany sparse store batch).store ∧
    postApiRecords localIdIndexSparseServerDatabaseJs env store2 logs req =
      ⟨store2 ++ normalizedBatch env req items,
       logs ++ [{ type := "record_submit", batchId := req.batchId,
                  count := some items.length, deviceId := req.deviceId,
                  timestamp := env.now, ip := req.ip }],
       .ok items.length req.batchId⟩ := by
  constructor
  · exact insertMany_preserves_unique sparse batch store hu
  · have hnorm : ∀ r ∈ normalizedBatch env req items, r.localId = none := by
      intro r hr
      obtain ⟨j, a, ha, he⟩ := mem_mapWithIndex hr
      subst he
      simpa [normalizeItem] using hnolid a ha
    have hlen : (normalizedBatch env req items).length = items.length :=
      mapWithIndex_length items 0
    have hins := insertMany_sparse_noLocalId (normalizedBatch env req items)
      store2 hnorm
    simp [postApiRecords, hdata, localIdIndexSparseServerDatabaseJs, hins, hlen]

/-- Counterexample to C2 as stated: under the unique index that
src/database.js creates without the sparse flag, a batch of two items
that both lack localId does not succeed -- the second insert collides
on the null index key, the handler reports the store failure, and only
the first record is committed. -/
theorem C2_unique_sparse_cex :
    (postApiRecords localIdIndexSparseDatabaseJs envW [] []
      { data := some [{}, {}] }).result = .storeError ∧
    (postApiRecords localIdIndexSparseDatabaseJs envW [] []
      { data := some [{}, {}] }).store.length = 1 := by
  exact ⟨rfl, rfl⟩

/-- Witness for C2 (amended): uniqueness is preserved on a concrete
insert, and a concrete two-item batch without localId is ingested
completely under the sparse index. -/
theorem C2_unique_sparse_witness :
    UniqueLocalIds (insertMany true [{ _id := "e0", localId := some "a" }]
      [{ _id := "n1", localId := some "b" }]).store ∧
    postApiRecords localIdIndexSparseServerDatabaseJs envW [] []
        { data := some [{}, {}] } =
      ⟨[] ++ normalizedBatch envW { data := some [{}, {}] } [{}, {}],
       [] ++ [{ type := "record_submit", batchId := none,
                count := some 2, deviceId := none,
                timestamp := 1000, ip := "" }],
       .ok 2 none⟩ := by
  have h := C2_unique_sparse true [{ _id := "e0", localId := some "a" }]
    [{ _id := "n1", localId := some "b" }] envW [] []
    { data := some [{}, {}] } [{}, {}]
    (by simp [UniqueLocalIds]) rfl (by decide)
  exact ⟨h.1, h.2⟩

/-- C9 (amended): a successful ingestion of n items answers with
submittedCount n and echoes the batchId exactly as supplied (absent
stays absent -- the time-derived default is stamped on the records but
not reported), and appends exactly one record_submit log entry carrying
count n, the supplied batchId and deviceId, and the caller address. -/
theorem C9_submit_response (sparse : Bool) (env : IngestEnv)
    (store : List Record) (logs : List LogEntry) (req : SubmitReq)
    (items : List Item) (hdata : req.data = some items)
    (hok : (insertMany sparse store (normalizedBatch env req items)).ok = true) :
    postApiRecords sparse env store logs req =
      ⟨store ++ normalizedBatch env req items,
       logs ++ [{ type := "record_submit", batchId := req.batchId,
                  count := some items.length, deviceId := req.deviceId,
                  timestamp := env.now, ip := req.ip }],
       .ok items.length req.batchId⟩ ∧
    ∀ r ∈ normalizedBatch env req items,
      r.batchId = some (jsOrD req.batchId ("batch_" ++ Nat.repr env.now)) := by
  have hspec := insertMany_ok_spec sparse (normalizedBatch env req items) store hok
  have hlen : (normalizedBatch env req items).length = items.length :=
    mapWithIndex_length items 0
  constructor
  · simp [postApiRecords, hdata, hok, hspec.1, hspec.2, hlen]
  · intro r hr
    obtain ⟨j, a, _, he⟩ := mem_mapWithIndex hr
    simp [he, normalizeItem]

/-- The C9 request: one item, no batchId and no deviceId supplied. -/
def reqB : SubmitReq := { data := some [{ name := some "A" }], ip := "198.51.100.7" }

/-- Counterexample to C9 as stated: with no batchId supplied the records
are stamped with the time-derived default, but the response reports no
batch identifier at all (and the log entry carries none either), not
the resolved default. -/
theorem C9_submit_response_cex :
    (postApiRecords true envW [] [] reqB).result = .ok 1 none ∧
    (postApiRecords true envW [] [] reqB).store.map (fun r => r.batchId)
      = [some "batch_1000"] ∧
    (postApiRecords true envW [] [] reqB).logs.map (fun e => e.batchId)
      = [none] ∧
    (none : Option String) ≠ some "batch_1000" := by
  refine ⟨rfl, rfl, rfl, by decide⟩

/-- Witness for C9 (amended) at a concrete one-item batch with a
supplied batchId. -/
theorem C9_submit_response_witness :
    postApiRecords true envW [] []
        { data := some [{ name := some "A" }], batchId := some "B1",
          deviceId := some "dev", ip := "198.51.100.7" } =
      ⟨[] ++ normalizedBatch envW
          { data := some [{ name := some "A" }], batchId := some "B1",
            deviceId := some "dev", ip := "198.51.100.7" } [{ name := some "A" }],
       [] ++ [{ type := "record_submit", batchId := some "B1",
                count := some 1, deviceId := some "dev",
                timestamp := 1000, ip := "198.51.100.7" }],
       .ok 1 (some "B1")⟩ :=
  (C9_submit_response true envW [] []
    { data := some [{ name := some "A" }], batchId := some "B1",
      deviceId := some "dev", ip := "198.51.100.7" }
    [{ name := some "A" }] rfl (by decide)).1

/-- deleteOne removes nothing when no record matches. -/
theorem removeFirst_nomatch (p : Record → Bool) :
    ∀ l : List Record, (∀ r ∈ l, p r = false) → removeFirst p l = (l, 0) := by
  intro l
  induction l with
  | nil => intro _; simp [removeFirst]
  | cons r rs ih =>
    intro h
    have hr := h r (by simp)
    have ht := ih (fun x hx => h x (by simp [hx]))
    simp [removeFirst, hr, ht]

/-- C4 (amended): an authorized deletion whose target is a well-formed
ObjectId string (so the constructor does not throw) and matches no
stored record succeeds with deletedCount zero and appends the delete
log entry; the original claim fails because for a malformed target
identifier the ObjectId constructor throws and the handler answers a
500 store error instead, as the counterexample shows. -/
theorem C4_delete_nonexistent (cfg : String) (now : Nat)
    (store : List Record) (logs : List LogEntry) (req : DeleteReq)
    (oid : String)
    (hpw : req.adminPassword = some cfg)
    (hb : req.id ≠ "batch") (ha : req.id ≠ "all")
    (hoid : oidOfString req.id = some oid)
    (hnone : ∀ r ∈ store, deleteOrMatch req.id oid r = false) :
    deleteApiRecordsId cfg now store logs req =
      ⟨store,
       logs ++ [{ type := "record_delete", targetId := some req.id,
                  deletedCount := some 0, timestamp := now, ip := req.ip }],
       .ok 0⟩ := by
  have hrf := removeFirst_nomatch (deleteOrMatch req.id oid) store hnone
  simp [deleteApiRecordsId, hpw, hb, ha, hoid, hrf]

/-- Counterexample to C4 as stated: with the correct password and the
nonexistent target nope (not a valid ObjectId string), the handler does
not answer deletedCount zero -- the ObjectId constructor throws and the
request fails with a store error, no log entry appended. -/
theorem C4_delete_nonexistent_cex :
    deleteApiRecordsId "admin123" 7 [] []
        { id := "nope", adminPassword := some "admin123" } =
      ⟨[], [], .storeError⟩ ∧
    DeleteResult.storeError ≠ .ok 0 := by
  refine ⟨rfl, by decide⟩

/-- Witness for C4 (amended): a syntactically valid 24 character hex
target matching no record deletes zero records and succeeds. -/
theorem C4_delete_nonexistent_witness :
    deleteApiRecordsId "admin123" 7 [{ _id := "aaaaaaaaaaaaaaaaaaaaaaaa" }] []
        { id := "507f1f77bcf86cd799439011", adminPassword := some "admin123",
          ip := "192.0.2.1" } =
      ⟨[{ _id := "aaaaaaaaaaaaaaaaaaaaaaaa" }],
       [{ type := "record_delete", targetId := some "507f1f77bcf86cd799439011",
          deletedCount := some 0, timestamp := 7, ip := "192.0.2.1" }],
       .ok 0⟩ := by
  have h := C4_delete_nonexistent "admin123" 7
    [{ _id := "aaaaaaaaaaaaaaaaaaaaaaaa" }] []
    { id := "507f1f77bcf86cd799439011", adminPassword := some "admin123",
      ip := "192.0.2.1" }
    "507f1f77bcf86cd799439011" rfl (by decide) (by decide) (by decide)
    (by decide)
  simpa using h

/-- Modelled from the spec: the row in the column order the
specification asserts -- sequence number, name, project, method,
content, payment, contact, amountTWD, amountRMB, submittedAt, deviceId,
batchId, localId -- with the per-field formatting the specification
describes, for comparison with the row the code builds. -/
def specRowClaimOrder (index : Nat) (item : Record) : List String :=
  [ String.mk (natRender (index + 1)),
    quoteWrap (item.name.getD ""),
    quoteWrap (item.project.getD ""),
    quoteWrap (String.mk (replaceNl (escQuotes (item.method.getD "").data))),
    quoteWrap (String.mk (escQuotes (item.content.getD "").data)),
    quoteWrap (item.payment.getD ""),
    quoteWrap (item.contact.getD ""),
    twdField item.amountTWD,
    rmbField item.amountRMB,
    submittedAtField item.submittedAt,
    quoteWrap (item.deviceId.getD ""),
    quoteWrap (item.batchId.getD ""),
    quoteWrap (item.localId.getD "") ]

/-- A fully populated record on which the two column orders differ. -/
def recC : Record :=
  { name := some "n", project := some "p", method := some "m",
    content := some "c", payment := some "paid", contact := some "t",
    amountTWD := some 5, amountRMB := some 3, submittedAt := some 0,
    deviceId := some "d", batchId := some "b", localId := some "l" }

/-- Counterexample to C7 as stated: on a fully populated record the row
the code builds differs from the row in the order the specification
asserts -- the code emits the amount columns fifth and sixth, where the
specification expects content there. -/
theorem C7_csv_row_format_cex :
    csvRow 0 recC ≠ specRowClaimOrder 0 recC ∧
    (csvRow 0 recC).getD 4 "" = "5" ∧
    (specRowClaimOrder 0 recC).getD 4 "" = "\"c\"" := by
  refine ⟨by decide, rfl, rfl⟩

/-- C7 (amended): every CSV data row has exactly 13 fields in the code
order -- sequence number, quoted name, quoted project, quoted method
with quotes doubled and newlines replaced, raw amountTWD defaulting to
0, amountRMB formatted with two decimals defaulting to 0, quoted
content with quotes doubled only, quoted payment, quoted contact, the
ISO submission instant or the empty string unquoted, then quoted
deviceId, batchId and localId, all text fields defaulting to the empty
string. -/
theorem C7_csv_row_format (i : Nat) (r : Record) :
    (csvRow i r).length = 13 ∧
    (csvRow i r).getD 0 "" = String.mk (natRender (i + 1)) ∧
    (csvRow i r).getD 1 "" = "\"" ++ r.name.getD "" ++ "\"" ∧
    (csvRow i r).getD 2 "" = "\"" ++ r.project.getD "" ++ "\"" ∧
    (csvRow i r).getD 3 "" =
      "\"" ++ String.mk (replaceNl (escQuotes (r.method.getD "").data)) ++ "\"" ∧
    (csvRow i r).getD 4 "" =
      (match r.amountTWD with
        | some q => if q = 0 then "0" else decRender q
        | none => "0") ∧
    (csvRow i r).getD 5 "" =
      (match r.amountRMB with
        | some q => if q = 0 then "0" else toFixed2 q
        | none => "0") ∧
    (csvRow i r).getD 6 "" =
      "\"" ++ String.mk (escQuotes (r.content.getD "").data) ++ "\"" ∧
    (csvRow i r).getD 7 "" = "\"" ++ r.payment.getD "" ++ "\"" ∧
    (csvRow i r).getD 8 "" = "\"" ++ r.contact.getD "" ++ "\"" ∧
    (csvRow i r).getD 9 "" =
      (match r.submittedAt with | some t => isoRender t | none => "") ∧
    (csvRow i r).getD 10 "" = "\"" ++ r.deviceId.getD "" ++ "\"" ∧
    (csvRow i r).getD 11 "" = "\"" ++ r.batchId.getD "" ++ "\"" ∧
    (csvRow i r).getD 12 "" = "\"" ++ r.localId.getD "" ++ "\"" :=
  ⟨rfl, rfl, rfl, rfl, rfl, rfl, rfl, rfl, rfl, rfl, rfl, rfl, rfl, rfl⟩

/-- A character that may sit in an unquoted CSV field: not a separator,
not a quote, not a record break. -/
def safeCh (c : Char) : Prop := c ≠ ',' ∧ c ≠ '"' ∧ c ≠ '\n'

/-- All characters of an unquoted field are safe. -/
def safeBareChars (l : List Char) : Prop := ∀ c ∈ l, safeCh c

theorem digCh_mem (n : Nat) :
    digCh n ∈ ['0', '1', '2', '3', '4', '5', '6', '7', '8', '9'] := by
  rcases h : n % 10 with _ | _ | _ | _ | _ | _ | _ | _ | _ | m <;>
    simp [digCh, h]

theorem digCh_safe (n : Nat) : safeCh (digCh n) := by
  have h := digCh_mem n
  simp only [List.mem_cons, List.not_mem_nil, or_false] at h
  rcases h with h | h | h | h | h | h | h | h | h | h <;>
    rw [h] <;> exact ⟨by decide, by decide, by decide⟩

theorem natDigitsF_safe : ∀ fuel n : Nat, safeBareChars (natDigitsF fuel n) := by
  intro fuel
  induction fuel with
  | zero => intro n c hc; simp [natDigitsF] at hc
  | succ f ih =>
    intro n c hc
    by_cases h0 : n = 0
    · simp [natDigitsF, h0] at hc
    · simp only [natDigitsF, h0, if_false, List.mem_append,
        List.mem_singleton] at hc
      rcases hc with hc | hc
      · exact ih (n / 10) c hc
      · exact hc ▸ digCh_safe n

theorem natRender_safe (n : Nat) : safeBareChars (natRender n) := by
  intro c hc
  by_cases h0 : n = 0
  · simp [natRender, h0] at hc
    exact hc ▸ ⟨by decide, by decide, by decide⟩
  · simp only [natRender, h0, if_false] at hc
    exact natDigitsF_safe _ _ c hc

theorem padZ_safe (w n : Nat) : safeBareChars (padZ w n) := by
  intro c hc
  simp only [padZ, List.mem_append] at hc
  rcases hc with hc | hc
  · have := List.eq_of_mem_replicate hc
    exact this ▸ ⟨by decide, by decide, by decide⟩
  · exact natRender_safe n c hc

theorem fracDigits_safe : ∀ fuel r den : Nat,
    safeBareChars (fracDigits fuel r den) := by
  intro fuel
  induction fuel with
  | zero => intro r den c hc; simp [fracDigits] at hc
  | succ f ih =>
    intro r den c hc
    by_cases h0 : r = 0
    · simp [fracDigits, h0] at hc
    · simp only [fracDigits, h0, if_false, List.mem_cons] at hc
      rcases hc with hc | hc
      · exact hc ▸ digCh_safe _
      · exact ih _ _ c hc

theorem safeBareChars_append {a b : List Char}
    (ha : safeBareChars a) (hb : safeBareChars b) :
    safeBareChars (a ++ b) := by
  intro c hc
  rcases List.mem_append.mp hc with h | h
  · exact ha c h
  · exact hb c h

theorem decRender_safe (q : ℚ) : safeBareChars (decRender q).data := by
  have hm : safeBareChars "-".data := by
    intro c hc; simp at hc; exact hc ▸ ⟨by decide, by decide, by decide⟩
  have he : safeBareChars "".data := by intro c hc; simp at hc
  have hd : safeBareChars ".".data := by
    intro c hc; simp at hc; exact hc ▸ ⟨by decide, by decide, by decide⟩
  simp only [decRender, String.data_append]
  refine safeBareChars_append (safeBareChars_append ?_ ?_) ?_
  · by_cases h : q.num < 0 <;> simp [h, hm, he]
  · exact natRender_safe _
  · by_cases h : q.num.natAbs % q.den = 0
    · simp [h, he]
    · simp only [h, if_false, String.data_append]
      exact safeBareChars_append hd (fracDigits_safe _ _ _)

theorem toFixed2_safe (q : ℚ) : safeBareChars (toFixed2 q).data := by
  have hm : safeBareChars "-".data := by
    intro c hc; simp at hc; exact hc ▸ ⟨by decide, by decide, by decide⟩
  have he : safeBareChars "".data := by intro c hc; simp at hc
  have hd : safeBareChars ".".data := by
    intro c hc; simp at hc; exact hc ▸ ⟨by decide, by decide, by decide⟩
  simp only [toFixed2, String.data_append]
  refine safeBareChars_append (safeBareChars_append
    (safeBareChars_append ?_ (natRender_safe _)) hd) (padZ_safe _ _)
  by_cases h : q.num < 0 <;> simp [h, hm, he]

theorem isoRender_safe (ms : Nat) : safeBareChars (isoRender ms).data := by
  have hlit : ∀ s : String, s = "-" ∨ s = ":" ∨ s = "T" ∨ s = "." ∨ s = "Z" →
      safeBareChars s.data := by
    rintro s (rfl | rfl | rfl | rfl | rfl) <;>
      · intro c hc; simp at hc; exact hc ▸ ⟨by decide, by decide, by decide⟩
  simp only [isoRender, String.data_append]
  refine safeBareChars_append (safeBareChars_append (safeBareChars_append
    (safeBareChars_append (safeBareChars_append (safeBareChars_append
    (safeBareChars_append (safeBareChars_append (safeBareChars_append
    (safeBareChars_append (safeBareChars_append (safeBareChars_append
    (safeBareChars_append (padZ_safe _ _) (hlit _ (by simp)))
    (padZ_safe _ _)) (hlit _ (by simp))) (padZ_safe _ _))
    (hlit _ (by simp))) (padZ_safe _ _)) (hlit _ (by simp)))
    (padZ_safe _ _)) (hlit _ (by simp))) (padZ_safe _ _))
    (hlit _ (by simp))) (padZ_safe _ _)) (hlit _ (by simp))

theorem twdField_safe (a : Option ℚ) : safeBareChars (twdField a).data := by
  have h0 : safeBareChars ("0" : String).data := by
    intro c hc; simp at hc; exact hc ▸ ⟨by decide, by decide, by decide⟩
  cases a with
  | none => simpa [twdField] using h0
  | some q =>
    by_cases h : q = 0
    · simpa [twdField, h] using h0
    · simpa [twdField, h] using decRender_safe q

theorem rmbField_safe (a : Option ℚ) : safeBareChars (rmbField a).data := by
  have h0 : safeBareChars ("0" : String).data := by
    intro c hc; simp at hc; exact hc ▸ ⟨by decide, by decide, by decide⟩
  cases a with
  | none => simpa [rmbField] using h0
  | some q =>
    by_cases h : q = 0
    · simpa [rmbField, h] using h0
    · simpa [rmbField, h] using toFixed2_safe q

theorem submittedAtField_safe (t : Option Nat) :
    safeBareChars (submittedAtField t).data := by
  cases t with
  | none => intro c hc; simp [submittedAtField] at hc
  | some ms => simpa [submittedAtField] using isoRender_safe ms

/-- Doubling quotes leaves a quote-free list unchanged. -/
theorem escQuotes_nq : ∀ l : List Char, '"' ∉ l → escQuotes l = l := by
  intro l
  induction l with
  | nil => intro _; rfl
  | cons c cs ih =>
    intro h
    have hc : ¬(c = '"') := fun he => h (by simp [he])
    have hcs : '"' ∉ cs := fun hm => h (by simp [hm])
    simp [escQuotes, hc, ih hcs]

/-- The quoted-field scanner undoes quote doubling: after the opening
quote, the doubled content followed by the closing quote and then the
end of the record or a comma scans back to the raw content. -/
theorem scanQ_esc : ∀ l rest : List Char,
    (rest = [] ∨ ∃ r, rest = ',' :: r) →
    scanQ (escQuotes l ++ '"' :: rest) = some (l, rest) := by
  intro l
  induction l with
  | nil =>
    intro rest hrest
    rcases hrest with rfl | ⟨r, rfl⟩ <;> simp [escQuotes, scanQ]
  | cons c cs ih =>
    intro rest hrest
    by_cases hc : c = '"'
    · subst hc
      simp only [escQuotes, if_pos rfl, List.cons_append]
      simp [scanQ, ih rest hrest]
    · simp only [escQuotes, hc, if_false, List.cons_append]
      rw [scanQ.eq_def]
      simp [hc, ih rest hrest]

/-- Quote doubling and newline replacement commute. -/
theorem replaceNl_escQuotes_comm : ∀ l : List Char,
    replaceNl (escQuotes l) = escQuotes (replaceNl l) := by
  intro l
  induction l with
  | nil => rfl
  | cons c cs ih =>
    by_cases hq : c = '"'
    · subst hq; simp [escQuotes, replaceNl, ih]
    · by_cases hn : c = '\n'
      · subst hn; simp [escQuotes, replaceNl, ih]
      · simp [escQuotes, replaceNl, hq, hn, ih]

/-- The bare-field scanner consumes a safe field up to the record end or
the next comma. -/
theorem scanBare_pre : ∀ l rest : List Char, safeBareChars l →
    (rest = [] ∨ ∃ r, rest = ',' :: r) →
    scanBare (l ++ rest) = some (l, rest) := by
  intro l
  induction l with
  | nil =>
    intro rest _ hrest
    rcases hrest with rfl | ⟨r, rfl⟩ <;> simp [scanBare]
  | cons c cs ih =>
    intro rest hsafe hrest
    obtain ⟨h1, h2, h3⟩ := hsafe c (by simp)
    have ih2 := ih rest (fun x hx => hsafe x (by simp [hx])) hrest
    simp [scanBare, h1, h2, h3, ih2]

/-- A CSV field as the export writes it: either an unquoted text or a
quoted text whose quotes get doubled. -/
inductive CsvField where
  | bare (l : List Char)
  | quoted (l : List Char)

/-- The characters a field contributes to the record line. -/
def renderF : CsvField → List Char
  | .bare l => l
  | .quoted l => '"' :: (escQuotes l ++ ['"'])

/-- The field value a reader should recover. -/
def contentF : CsvField → List Char
  | .bare l => l
  | .quoted l => l

/-- A field is well-formed when a bare field holds only safe
characters; a quoted field may hold anything. -/
def okF : CsvField → Prop
  | .bare l => safeBareChars l
  | .quoted _ => True

/-- The full record line: fields joined by commas. -/
def renderFields : List CsvField → List Char
  | [] => []
  | [f] => renderF f
  | f :: fs => renderF f ++ ',' :: renderFields fs

theorem renderFields_length_ge : ∀ fs : List CsvField,
    fs.length ≤ (renderFields fs).length + 1 := by
  intro fs
  induction fs with
  | nil => simp [renderFields]
  | cons f gs ih =>
    cases gs with
    | nil => simp [renderFields]
    | cons g gs2 =>
      simp only [renderFields, List.length_append, List.length_cons] at *
      omega

/-- The reader recovers exactly the field values of a well-formed
record line, given fuel for the field count. -/
theorem parseFieldsF_render : ∀ (gs : List CsvField) (f : CsvField) (fuel : Nat),
    okF f → (∀ g ∈ gs, okF g) → gs.length + 1 ≤ fuel →
    parseFieldsF fuel (renderFields (f :: gs)) =
      some ((f :: gs).map contentF) := by
  intro gs
  induction gs with
  | nil =>
    intro f fuel hf _ hfuel
    obtain ⟨m, rfl⟩ : ∃ m, fuel = m + 1 := ⟨fuel - 1, by omega⟩
    cases f with
    | bare l =>
      cases l with
      | nil => simp [renderFields, renderF, parseFieldsF, scanBare, contentF]
      | cons c cs =>
        obtain ⟨h1, h2, h3⟩ := hf c (by simp)
        have hsb : scanBare (c :: cs) = some (c :: cs, []) := by
          simpa using scanBare_pre (c :: cs) [] hf (Or.inl rfl)
        simp [renderFields, renderF, parseFieldsF, h2, hsb, contentF]
    | quoted l =>
      have hq := scanQ_esc l [] (Or.inl rfl)
      simp [renderFields, renderF, parseFieldsF, hq, contentF]
  | cons g gs2 ih =>
    intro f fuel hf hgs hfuel
    obtain ⟨m, rfl⟩ : ∃ m, fuel = m + 1 := ⟨fuel - 1, by omega⟩
    have hrec := ih g m (hgs g (by simp))
      (fun x hx => hgs x (by simp [hx])) (by simp at hfuel; omega)
    cases f with
    | bare l =>
      have hsb : scanBare (l ++ ',' :: renderFields (g :: gs2)) =
          some (l, ',' :: renderFields (g :: gs2)) :=
        scanBare_pre l _ hf (Or.inr ⟨_, rfl⟩)
      cases l with
      | nil =>
        simp only [List.nil_append] at hsb
        simp [renderFields, renderF, parseFieldsF, hsb, hrec, contentF]
      | cons c cs =>
        obtain ⟨h1, h2, h3⟩ := hf c (by simp)
        simp only [List.cons_append] at hsb
        simp [renderFields, renderF, parseFieldsF, h2, hsb, hrec, contentF]
    | quoted l =>
      have hq := scanQ_esc l (',' :: renderFields (g :: gs2))
        (Or.inr ⟨_, rfl⟩)
      simp only [renderFields, renderF, parseFieldsF, List.cons_append,
        List.append_assoc, List.singleton_append]
      simp [hq, hrec, contentF]

/-- C8 (amended): the export starts with the byte order mark, the
header has exactly 13 labels and every data row exactly 13 fields; and
whenever the seven verbatim-quoted text fields (name, project, payment,
contact, deviceId, batchId, localId) contain no double quote, a
standard RFC 4180 reader parses the record line back into exactly its
13 field values -- commas and newlines in quoted fields and doubled
quotes in method and content included. The unconditional claim fails:
a double quote inside one of the seven verbatim fields breaks the
reader, as the counterexample shows. -/
theorem C8_csv_structure (records : List Record) (i : Nat) (r : Record)
    (hname : '"' ∉ (r.name.getD "").data)
    (hproj : '"' ∉ (r.project.getD "").data)
    (hpay : '"' ∉ (r.payment.getD "").data)
    (hcont : '"' ∉ (r.contact.getD "").data)
    (hdev : '"' ∉ (r.deviceId.getD "").data)
    (hbatch : '"' ∉ (r.batchId.getD "").data)
    (hlocal : '"' ∉ (r.localId.getD "").data) :
    (∃ t, csvExport records = "\uFEFF" ++ t) ∧
    csvHeaders.length = 13 ∧
    (csvRow i r).length = 13 ∧
    csvParseRecord (joinComma (csvRow i r)) =
      some [String.mk (natRender (i + 1)), r.name.getD "", r.project.getD "",
            String.mk (replaceNl (r.method.getD "").data),
            twdField r.amountTWD, rmbField r.amountRMB,
            r.content.getD "", r.payment.getD "", r.contact.getD "",
            submittedAtField r.submittedAt,
            r.deviceId.getD "", r.batchId.getD "", r.localId.getD ""] := by
  refine ⟨⟨_, rfl⟩, rfl, rfl, ?_⟩
  have e1 := escQuotes_nq _ hname
  have e2 := escQuotes_nq _ hproj
  have e3 := escQuotes_nq _ hpay
  have e4 := escQuotes_nq _ hcont
  have e5 := escQuotes_nq _ hdev
  have e6 := escQuotes_nq _ hbatch
  have e7 := escQuotes_nq _ hlocal
  set f0 : CsvField := .bare (natRender (i + 1)) with hf0
  set gs : List CsvField :=
    [.quoted (r.name.getD "").data, .quoted (r.project.getD "").data,
     .quoted (replaceNl (r.method.getD "").data),
     .bare (twdField r.amountTWD).data, .bare (rmbField r.amountRMB).data,
     .quoted (r.content.getD "").data, .quoted (r.payment.getD "").data,
     .quoted (r.contact.getD "").data,
     .bare (submittedAtField r.submittedAt).data,
     .quoted (r.deviceId.getD "").data, .quoted (r.batchId.getD "").data,
     .quoted (r.localId.getD "").data] with hgs
  have hrender : (joinComma (csvRow i r)).data = renderFields (f0 :: gs) := by
    simp [hf0, hgs, csvRow, joinComma, renderFields, renderF, quoteWrap,
      String.data_append, replaceNl_escQuotes_comm, e1, e2, e3, e4, e5, e6, e7]
  have hok : ∀ g ∈ gs, okF g := by
    intro g hg
    simp only [hgs, List.mem_cons, List.not_mem_nil, or_false] at hg
    rcases hg with rfl | rfl | rfl | rfl | rfl | rfl | rfl | rfl | rfl | rfl | rfl | rfl
    · exact trivial
    · exact trivial
    · exact trivial
    · exact twdField_safe r.amountTWD
    · exact rmbField_safe r.amountRMB
    · exact trivial
    · exact trivial
    · exact trivial
    · exact submittedAtField_safe r.submittedAt
    · exact trivial
    · exact trivial
    · exact trivial
  have hfuel : gs.length + 1 ≤ (joinComma (csvRow i r)).length + 1 := by
    have h13 := renderFields_length_ge (f0 :: gs)
    have hlen : (joinComma (csvRow i r)).length =
        (renderFields (f0 :: gs)).length := congrArg List.length hrender
    simp only [List.length_cons] at h13
    omega
  have hparse := parseFieldsF_render gs f0 ((joinComma (csvRow i r)).length + 1)
    (natRender_safe (i + 1)) hok hfuel
  rw [csvParseRecord, hrender, hparse]
  rfl

/-- A record whose name field carries a double quote. -/
def recBad : Record := { name := some "x\"y" }

/-- Counterexample to C8 as stated: the name value carries a double
quote, the row template wraps it verbatim, and the standard CSV reader
rejects the resulting record line. -/
theorem C8_csv_parseable_cex :
    '"' ∈ (recBad.name.getD "").data ∧
    csvParseRecord (joinComma (csvRow 0 recBad)) = none := by
  exact ⟨by decide, by decide⟩

/-- A record with a comma in the name, a newline in the content and a
double quote in the method. -/
def recG : Record :=
  { name := some "a,b", content := some "l1\nl2", method := some "q\"m" }

/-- Witness for C8 (amended) at a concrete record exercising a comma, a
newline and an escaped double quote. -/
theorem C8_csv_structure_witness :
    (∃ t, csvExport [recG] = "\uFEFF" ++ t) ∧
    csvHeaders.length = 13 ∧
    (csvRow 0 recG).length = 13 ∧
    csvParseRecord (joinComma (csvRow 0 recG)) =
      some [String.mk (natRender (0 + 1)), recG.name.getD "",
            recG.project.getD "",
            String.mk (replaceNl (recG.method.getD "").data),
            twdField recG.amountTWD, rmbField recG.amountRMB,
            recG.content.getD "", recG.payment.getD "", recG.contact.getD "",
            submittedAtField recG.submittedAt,
            recG.deviceId.getD "", recG.batchId.getD "",
            recG.localId.getD ""] :=
  C8_csv_structure [recG] 0 recG (by decide) (by decide) (by decide)
    (by decide) (by decide) (by decide) (by decide)

end ZR
